import Mathlib

/-!
# Verification of the Dagr device update subsystem

Shallow embedding of `src/version.py` (`VersionManager`) and
`src/update_manager.py` (`UpdateManager`) from the `kilobyteno/dagr-device`
repository, together with proofs of the specified properties.

Filesystems are modelled either as finite association lists
`List (String × String)` (absolute path, file content) or as partial maps
`String → Option String` (relative path under the installation root, content),
whichever fits the operation being embedded. Exceptional control flow in the
Python source (`try`/`except`) is modelled with explicit failure parameters
(`netOk`, `failAt`, …) and `Except`-style results, with the side effects on
the filesystem threaded through explicitly.
-/

namespace Dagr

/-! ## Version parsing and comparison (`src/version.py`)

`VersionManager.compare_versions` parses both strings with
`packaging.version.parse` and compares the parsed versions; any parse
failure is caught and the comparison returns `0`.

`packaging.version.parse` is an external dependency; per the spec (§3) a
version is `MAJOR.MINOR.PATCH[-SUFFIX]` compared numerically componentwise.
We model the numeric-release fragment of the parser: a dot-separated list of
decimal numerals (any other string fails to parse), compared like
`packaging` compares release tuples, i.e. after padding with zeros
(equivalently: after dropping trailing zero components, lexicographically).
-/

/-- Split a character list on a separator character (model of Python
`str.split` with a single-character separator; structural so that the kernel
can evaluate it). -/
def splitOnChar (sep : Char) : List Char → List (List Char)
  | [] => [[]]
  | c :: cs =>
    let r := splitOnChar sep cs
    if c = sep then [] :: r
    else
      match r with
      | [] => [[c]]
      | h :: t => (c :: h) :: t

/-- Parse a nonempty all-digit character list as a decimal numeral. -/
def parseNatChars (l : List Char) : Option Nat :=
  if !l.isEmpty && l.all (fun c => c.isDigit) then
    some (l.foldl (fun n c => n * 10 + (c.toNat - 48)) 0)
  else none

/-- Parse a version string as a dot-separated list of decimal numerals.
Any component that is not a plain numeral makes the whole parse fail,
modelling the `InvalidVersion` exception of `packaging.version.parse`. -/
def parseVersion (s : String) : Option (List Nat) :=
  (splitOnChar '.' s.toList).mapM parseNatChars

/-- Drop trailing zero components, so that `1.0` and `1.0.0` compare equal,
as `packaging` compares release tuples after zero-padding. -/
def canon (l : List Nat) : List Nat :=
  (l.reverse.dropWhile (· = 0)).reverse

/-- Lexicographic comparison of numeral lists (a strict prefix is smaller;
on canonical forms this coincides with zero-padded comparison). -/
def lexCmp : List Nat → List Nat → Ordering
  | [], [] => .eq
  | [], _ :: _ => .lt
  | _ :: _, [] => .gt
  | a :: as, b :: bs =>
    if a < b then .lt else if b < a then .gt else lexCmp as bs

/-- `VersionManager.compare_versions` (src/version.py lines 82–99):
returns −1 / 0 / 1; any parse failure is caught and yields `0`. -/
def compare_versions (version1 version2 : String) : Int :=
  match parseVersion version1, parseVersion version2 with
  | some v1, some v2 =>
    match lexCmp (canon v1) (canon v2) with
    | .lt => -1
    | .gt => 1
    | .eq => 0
  | _, _ => 0

/-- `VersionManager.is_newer_version_available` (src/version.py lines
101–103): `compare_versions(current, remote) < 0`. -/
def is_newer_version_available (current remote : String) : Bool :=
  compare_versions current remote < 0

theorem lexCmp_self (l : List Nat) : lexCmp l l = .eq := by
  induction l with
  | nil => rfl
  | cons a as ih => simp [lexCmp, ih]

theorem lexCmp_swap (a b : List Nat) : lexCmp b a = (lexCmp a b).swap := by
  induction a generalizing b with
  | nil => cases b <;> rfl
  | cons x xs ih =>
    cases b with
    | nil => rfl
    | cons y ys =>
      by_cases h1 : x < y
      · have h2 : ¬ y < x := by omega
        simp [lexCmp, h1, h2, Ordering.swap]
      · by_cases h2 : y < x
        · simp [lexCmp, h1, h2, Ordering.swap]
        · simp [lexCmp, h1, h2, ih]

theorem lexCmp_trans {a b c : List Nat} (hab : lexCmp a b = .lt)
    (hbc : lexCmp b c = .lt) : lexCmp a c = .lt := by
  induction a generalizing b c with
  | nil =>
    cases b with
    | nil => simp [lexCmp] at hab
    | cons y ys =>
      cases c with
      | nil => simp [lexCmp] at hbc
      | cons z zs => rfl
  | cons x xs ih =>
    cases b with
    | nil => simp [lexCmp] at hab
    | cons y ys =>
      cases c with
      | nil => simp [lexCmp] at hbc
      | cons z zs =>
        simp only [lexCmp] at hab hbc ⊢
        by_cases hxy : x < y
        · by_cases hyz : y < z
          · have : x < z := by omega
            simp [this]
          · by_cases hzy : z < y
            · simp [hyz, hzy] at hbc
            · have : x < z := by omega
              simp [this]
        · by_cases hyx : y < x
          · simp [hxy, hyx] at hab
          · have hxye : x = y := by omega
            by_cases hyz : y < z
            · have : x < z := by omega
              simp [this]
            · by_cases hzy : z < y
              · simp [hyz, hzy] at hbc
              · have hyze : y = z := by omega
                have hxz : ¬ x < z := by omega
                have hzx : ¬ z < x := by omega
                simp only [hxy, hyx, if_neg, ite_false] at hab
                simp only [hyz, hzy, if_neg, ite_false] at hbc
                simp [hxz, hzx, ih hab hbc]

theorem compare_versions_antisym (a b : String) :
    compare_versions a b = -(compare_versions b a) := by
  unfold compare_versions
  cases ha : parseVersion a <;> cases hb : parseVersion b <;> simp
  rw [lexCmp_swap]
  cases lexCmp (canon _) (canon _) <;> simp [Ordering.swap]

theorem compare_versions_self (a : String) : compare_versions a a = 0 := by
  unfold compare_versions
  cases ha : parseVersion a <;> simp [lexCmp_self]

theorem compare_versions_lt_iff (a b : String) :
    compare_versions a b < 0 ↔
      ∃ va vb, parseVersion a = some va ∧ parseVersion b = some vb ∧
        lexCmp (canon va) (canon vb) = .lt := by
  unfold compare_versions
  cases ha : parseVersion a <;> cases hb : parseVersion b <;> simp
  constructor
  · intro h
    cases hc : lexCmp (canon _) (canon _) <;> simp [hc] at h ⊢
  · intro h
    simp [h]

theorem compare_versions_trans {a b c : String}
    (hab : compare_versions a b < 0) (hbc : compare_versions b c < 0) :
    compare_versions a c < 0 := by
  rw [compare_versions_lt_iff] at hab hbc ⊢
  obtain ⟨va, vb, ha, hb, h1⟩ := hab
  obtain ⟨vb', vc, hb', hc, h2⟩ := hbc
  rw [hb'] at hb
  cases hb
  exact ⟨va, vc, ha, hc, lexCmp_trans h1 h2⟩

/-- C2: `compare_versions` is a strict total order on versions: antisymmetry
(`compare_versions a b = -(compare_versions b a)`), reflexive zero
(`compare_versions a a = 0`), and transitivity of the strict comparison
(`compare_versions a b < 0` and `compare_versions b c < 0` imply
`compare_versions a c < 0`), for all version strings. -/
theorem compare_versions_strict_total_order (a b c : String) :
    compare_versions a b = -(compare_versions b a) ∧
    compare_versions a a = 0 ∧
    (compare_versions a b < 0 → compare_versions b c < 0 →
      compare_versions a c < 0) :=
  ⟨compare_versions_antisym a b, compare_versions_self a,
    fun h1 h2 => compare_versions_trans h1 h2⟩

/-- Witness for C2: transitivity applied at the concrete chain
`1.2.3 < 1.10.0 < 2.0.0` (numeric, not lexicographic, comparison). -/
theorem compare_versions_strict_total_order_witness :
    compare_versions "1.2.3" "2.0.0" < 0 :=
  (compare_versions_strict_total_order "1.2.3" "1.10.0" "2.0.0").2.2
    (by decide) (by decide)

/-- C10: `compare_versions` is total over arbitrary strings: if either input
fails to parse as a version, it returns `0` (the caught-exception branch),
and consequently `is_newer_version_available` returns `false` whenever the
candidate string is unparseable. -/
theorem compare_versions_unparseable_equal (a b : String)
    (h : parseVersion a = none ∨ parseVersion b = none) :
    compare_versions a b = 0 ∧ is_newer_version_available a b = false := by
  have hz : compare_versions a b = 0 := by
    rcases h with h | h
    · cases hb : parseVersion b <;> simp [compare_versions, h, hb]
    · cases ha : parseVersion a <;> simp [compare_versions, h, ha]
  refine ⟨hz, ?_⟩
  unfold is_newer_version_available
  rw [hz]
  rfl

/-- Witness for C10: an unparseable candidate string is treated as equal and
reported as not newer. -/
theorem compare_versions_unparseable_equal_witness :
    compare_versions "1.0.0" "not-a-version" = 0 ∧
    is_newer_version_available "1.0.0" "not-a-version" = false :=
  compare_versions_unparseable_equal "1.0.0" "not-a-version"
    (Or.inr (by decide))

/-! ## Path and filesystem helpers

String-level models of the `pathlib` / `str` operations used by
`update_manager.py`, written structurally over `List Char` so the kernel can
evaluate them on concrete inputs. -/

/-- Model of `str.startswith`. -/
def startsWithStr (s p : String) : Bool := p.toList.isPrefixOf s.toList

/-- Model of `str.endswith`. -/
def endsWithStr (s p : String) : Bool := p.toList.isSuffixOf s.toList

/-- Model of `str.strip` (drop surrounding whitespace). -/
def trimStr (s : String) : String :=
  String.mk (((s.toList.dropWhile (fun c => c.isWhitespace)).reverse.dropWhile
    (fun c => c.isWhitespace)).reverse)

/-- Join character-list path components with a separator. -/
def joinChar (sep : Char) : List (List Char) → List Char
  | [] => []
  | [l] => l
  | l :: ls => l ++ sep :: joinChar sep ls

/-- Model of `pathlib.Path.name`: the last `/`-separated component. -/
def fileName (p : String) : String :=
  String.mk ((splitOnChar '/' p.toList).getLastD [])

/-- Model of `pathlib.Path.parent`: the path with its last component
removed. -/
def parentDir (p : String) : String :=
  String.mk (joinChar '/' ((splitOnChar '/' p.toList).dropLast))

/-- Model of `pathlib.Path.suffix`: the final extension of the file name
(empty for a dotless name, and for a bare leading-dot name). -/
def pathSuffix (p : String) : String :=
  let n := (splitOnChar '/' p.toList).getLastD []
  match splitOnChar '.' n with
  | [] => ""
  | [_] => ""
  | parts =>
    if n.headD ' ' = '.' ∧ parts.length = 2 then ""
    else String.mk ('.' :: parts.getLastD [])

/-- Model of `fnmatch`-style matching of one path component against one
pattern component: a literal character matches itself, `?` matches any one
character, `*` matches any (possibly empty) run of characters. (Character
classes `[...]` are not used by this repository's patterns and are not
modelled.) -/
def fnmatchList : List Char → List Char → Bool
  | [], s => s.isEmpty
  | '*' :: ps, s => s.tails.any fun t => fnmatchList ps t
  | '?' :: ps, s =>
    match s with
    | [] => false
    | _ :: cs => fnmatchList ps cs
  | p :: ps, s =>
    match s with
    | [] => false
    | c :: cs => p == c && fnmatchList ps cs

/-- Model of `pathlib.PurePath.match` for relative patterns: the pattern's
`/`-separated components must match the trailing components of the path,
componentwise with `fnmatch` semantics. -/
def pathMatch (rel pattern : String) : Bool :=
  let pc := splitOnChar '/' pattern.toList
  let rc := splitOnChar '/' rel.toList
  decide (pc.length ≤ rc.length) &&
    ((rc.drop (rc.length - pc.length)).zip pc).all
      (fun x => fnmatchList x.2 x.1)

/-! ## `validate_update` (src/update_manager.py lines 201–239)

The extracted package is modelled as the finite list of its files, in
`rglob` traversal order, as pairs of (path relative to the extracted
directory, file content). -/

/-- `UpdateManager.validate_update`: fails when no file named `VERSION`
exists anywhere under the tree; fails when the marker's (stripped) content
is not strictly newer than the current version; the critical-file loop only
computes warnings and never affects the result; otherwise returns true. -/
def validate_update (currentVersion : String)
    (files : List (String × String)) (critical_files : List String) : Bool :=
  match files.find? (fun f => fileName f.1 == "VERSION") with
  | none => false
  | some vf =>
    if !is_newer_version_available currentVersion (trimStr vf.2) then false
    else
      -- for each critical file, rglob for its basename; absence is only logged
      let _warnings := critical_files.filter
        (fun c => !(files.any (fun f => fileName f.1 == fileName c)))
      true

/-- C4: `validate_update` returns false when no `VERSION` marker file exists
under the extracted tree; when a marker is found its verdict is exactly
whether the marker's stripped content is strictly newer than the current
version (false when not newer, true when newer); and the configured critical
files never influence the result — absence is a warning only. -/
theorem validate_update_spec (currentVersion : String)
    (files : List (String × String)) (critical critical' : List String) :
    (files.find? (fun f => fileName f.1 == "VERSION") = none →
      validate_update currentVersion files critical = false) ∧
    (∀ vf, files.find? (fun f => fileName f.1 == "VERSION") = some vf →
      validate_update currentVersion files critical =
        is_newer_version_available currentVersion (trimStr vf.2)) ∧
    validate_update currentVersion files critical =
      validate_update currentVersion files critical' := by
  refine ⟨?_, ?_, ?_⟩
  · intro h
    simp [validate_update, h]
  · intro vf h
    cases hn : is_newer_version_available currentVersion (trimStr vf.2) <;>
      simp [validate_update, h, hn]
  · cases hf : files.find? (fun f => fileName f.1 == "VERSION") with
    | none => simp [validate_update, hf]
    | some vf =>
      cases hn : is_newer_version_available currentVersion (trimStr vf.2) <;>
        simp [validate_update, hf, hn]

/-- Witness for C4: with current version `2.0.0`, a package whose marker
reads `2.1.0` validates, one whose marker reads `2.0.0` is rejected, and a
package with no marker is rejected, independently of critical files. -/
theorem validate_update_spec_witness :
    validate_update "2.0.0" [("sub/VERSION", "2.1.0\n")] ["src/dagr.py"] = true ∧
    validate_update "2.0.0" [("sub/VERSION", "2.0.0")] [] = false ∧
    validate_update "2.0.0" [("src/dagr.py", "pass")] [] = false := by
  refine ⟨?_, ?_, ?_⟩
  · rw [(validate_update_spec "2.0.0" [("sub/VERSION", "2.1.0\n")] ["src/dagr.py"]
      []).2.1 ("sub/VERSION", "2.1.0\n") (by decide)]
    decide
  · rw [(validate_update_spec "2.0.0" [("sub/VERSION", "2.0.0")] [] []).2.1
      ("sub/VERSION", "2.0.0") (by decide)]
    decide
  · exact (validate_update_spec "2.0.0" [("src/dagr.py", "pass")] [] []).1
      (by decide)

/-! ## Update configuration and installation state

`UpdateConfig` mirrors the `default_config` dictionary of
`UpdateManager.load_update_config` (src/update_manager.py lines 50–69).

`World` models the machine state the update subsystem mutates: the
installation tree (a partial map from path relative to the project root to
file content), the set of backups in the backup directory (by name; the
backup directory is rooted at the separately configurable config
directory and its file-level contents are modelled by `create_backup`
below), the temporary scratch directories currently on disk, and counters
of service stop/start invocations. -/

structure UpdateConfig where
  auto_update : Bool
  update_channel : String
  backup_before_update : Bool
  restart_after_update : Bool
  update_url : String
  excluded_files : List String
  critical_files : List String
deriving Repr

/-- The default update configuration written by `load_update_config`. -/
def default_update_config : UpdateConfig where
  auto_update := false
  update_channel := "stable"
  backup_before_update := true
  restart_after_update := true
  update_url := "https://api.github.com/repos/your-org/dagr-device/releases/latest"
  excluded_files := ["config/*.json", "config/tokens.json", "config/.key",
    "config/backups/*"]
  critical_files := ["src/dagr.py", "src/display_manager.py",
    "src/version.py", "install/install.sh", "install/dagr.service"]

structure World where
  install : String → Option String
  backups : List String
  tempDirs : List String
  serviceStops : Nat
  serviceStarts : Nat

/-- The exclusion test of the copy loop (src/update_manager.py line 271):
`rel_path.match(pattern) or str(rel_path).startswith(pattern.replace("*", ""))`. -/
def shouldExclude (excluded_patterns : List String) (rel : String) : Bool :=
  excluded_patterns.any (fun pattern =>
    pathMatch rel pattern ||
      startsWithStr rel (String.mk (pattern.toList.filter (fun c => c ≠ '*'))))

/-- The copy loop of `apply_update` (src/update_manager.py lines 263–287):
walk the package files in order; skip a file when the exclusion test fires,
otherwise copy it to the same relative path under the project root. -/
def copyFiles (excluded_patterns : List String) :
    List (String × String) → (String → Option String) → String → Option String
  | [], inst => inst
  | f :: fs, inst =>
    if shouldExclude excluded_patterns f.1 then
      copyFiles excluded_patterns fs inst
    else
      copyFiles excluded_patterns fs
        (fun s => if s = f.1 then some f.2 else inst s)

/-- Look up a file by exact relative path in the package listing. -/
def lookupFile (pkg : List (String × String)) (p : String) : Option String :=
  (pkg.find? (fun f => f.1 == p)).map (fun f => f.2)

/-- `UpdateManager.apply_update` (src/update_manager.py lines 241–325), on
a package listing rooted at the package content root.

Parameters modelling the impure parts: `backupOk` is whether the
`create_backup` call inside `apply_update` succeeds (on failure the raised
exception is caught and `apply_update` returns false with no service stop);
`bname` is the timestamp-derived default backup name; `vinfo` is the
serialized `version_info.json` content written by
`version_manager.set_version` (its `build_date` is wall-clock time).

Steps, in source order: optional backup; `stop_services`; the exclusion-
filtered copy loop; then, when the package root holds a `VERSION` file,
`set_version` with its stripped content, which writes the `VERSION` marker
and the version-info metadata file regardless of exclusion patterns. The
permission-fixing block only changes ownership/mode bits, never file
contents, and its failures are caught as warnings, so it is not modelled. -/
def apply_update (cfg : UpdateConfig) (backupOk : Bool) (bname vinfo : String)
    (pkg : List (String × String)) (w : World) : Bool × World :=
  if cfg.backup_before_update && !backupOk then
    (false, w)
  else
    let w1 := if cfg.backup_before_update
      then { w with backups := w.backups ++ [bname] } else w
    let w2 := { w1 with serviceStops := w1.serviceStops + 1 }
    let inst1 := copyFiles cfg.excluded_files pkg w2.install
    let inst2 :=
      match lookupFile pkg "VERSION" with
      | some c => fun s =>
          if s = "VERSION" then some (trimStr c)
          else if s = "config/version_info.json" then some vinfo
          else inst1 s
      | none => inst1
    (true, { w2 with install := inst2 })

theorem shouldExclude_of_match {pats : List String} {rel p : String}
    (hp : p ∈ pats) (hm : pathMatch rel p = true) :
    shouldExclude pats rel = true := by
  simp only [shouldExclude, List.any_eq_true, Bool.or_eq_true]
  exact ⟨p, hp, Or.inl hm⟩

theorem copyFiles_excluded (pats : List String) (pkg : List (String × String))
    (inst : String → Option String) (rel : String)
    (h : shouldExclude pats rel = true) :
    copyFiles pats pkg inst rel = inst rel := by
  induction pkg generalizing inst with
  | nil => rfl
  | cons f fs ih =>
    by_cases hf : shouldExclude pats f.1 = true
    · simp [copyFiles, hf, ih]
    · have hne : rel ≠ f.1 := fun he => hf (he ▸ h)
      simp only [copyFiles, hf, if_false, Bool.false_eq_true]
      rw [ih]
      simp [hne]

/-- Configuration for the C3 counterexample: the `VERSION` marker itself is
listed as an exclusion pattern. -/
def exclusionCounterConfig : UpdateConfig :=
  { default_update_config with
      backup_before_update := false
      excluded_files := ["VERSION"] }

/-- Installation state for the C3 counterexample. -/
def exclusionCounterWorld : World where
  install := fun s => if s = "VERSION" then some "1.0.0" else none
  backups := []
  tempDirs := []
  serviceStops := 0
  serviceStarts := 0

/-- C3 counterexample: with `excluded_files = ["VERSION"]` and a package
containing a `VERSION` file, the relative path `VERSION` matches the
exclusion glob, yet after `apply_update` the installation's content at
`VERSION` changed from `1.0.0` to `2.0.0` — the version-update step of
`apply_update` (`set_version`) writes the marker regardless of exclusions,
so the claim as stated is false. -/
theorem apply_update_exclusion_counterexample :
    pathMatch "VERSION" "VERSION" = true ∧
    exclusionCounterWorld.install "VERSION" = some "1.0.0" ∧
    ((apply_update exclusionCounterConfig true "b" "vi"
        [("VERSION", "2.0.0")] exclusionCounterWorld).2).install "VERSION" =
      some "2.0.0" := by
  refine ⟨by decide, by decide, by decide⟩

/-- C3 (amended): for every relative path that matches one of the configured
exclusion globs, the copy phase of `apply_update` never writes it and the
installation's content at that path is unchanged — except at the `VERSION`
marker and at the version-info metadata file `config/version_info.json`,
which the version-update step of `apply_update` writes regardless of
exclusion patterns. -/
theorem apply_update_respects_exclusions (cfg : UpdateConfig)
    (backupOk : Bool) (bname vinfo : String) (pkg : List (String × String))
    (w : World) (rel p : String) (hp : p ∈ cfg.excluded_files)
    (hm : pathMatch rel p = true)
    (hv : rel ≠ "VERSION") (hvi : rel ≠ "config/version_info.json") :
    ((apply_update cfg backupOk bname vinfo pkg w).2).install rel =
      w.install rel := by
  have hse := shouldExclude_of_match hp hm
  unfold apply_update
  cases hc : cfg.backup_before_update <;> cases hbo : backupOk <;>
    cases hl : lookupFile pkg "VERSION" <;>
      simp [hc, hbo, hl, hv, hvi, copyFiles_excluded _ _ _ _ hse]

/-- Witness for C3 (amended): with the default exclusion patterns, a
pre-existing `config/tokens.json` is untouched even though the package ships
one. -/
theorem apply_update_respects_exclusions_witness :
    ((apply_update default_update_config true "b" "vi"
        [("config/tokens.json", "stolen"), ("src/dagr.py", "new")]
        { install := fun s => if s = "config/tokens.json"
            then some "secret" else none
          backups := [], tempDirs := [], serviceStops := 0,
          serviceStarts := 0 }).2).install "config/tokens.json" =
      some "secret" := by
  rw [apply_update_respects_exclusions default_update_config true "b" "vi"
    [("config/tokens.json", "stolen"), ("src/dagr.py", "new")]
    { install := fun s => if s = "config/tokens.json"
        then some "secret" else none
      backups := [], tempDirs := [], serviceStops := 0, serviceStarts := 0 }
    "config/tokens.json" "config/tokens.json"
    (by decide) (by decide) (by decide) (by decide)]
  decide

/-- Installation state for the C8 theorems. -/
def frameCounterWorld : World where
  install := fun _ => none
  backups := []
  tempDirs := []
  serviceStops := 0
  serviceStarts := 0

/-- C8 counterexample: with the default configuration (which enables
`backup_before_update`), `apply_update` on an empty package itself creates a
backup and issues a service stop — the backup directory does not stay
unchanged and a stop is issued, so the claim as stated is false. -/
theorem apply_update_frame_counterexample :
    frameCounterWorld.backups = [] ∧
    frameCounterWorld.serviceStops = 0 ∧
    ((apply_update default_update_config true "backup_20250101_000000" "vi" []
        frameCounterWorld).2).backups = ["backup_20250101_000000"] ∧
    ((apply_update default_update_config true "backup_20250101_000000" "vi" []
        frameCounterWorld).2).serviceStops = 1 := by
  refine ⟨rfl, rfl, by decide, by decide⟩

/-- C8 (amended): backup creation and service stop happen inside
`apply_update` itself, not in the orchestrator before it: whenever
`backup_before_update` is enabled and the backup succeeds, `apply_update`
appends exactly one backup and issues exactly one service stop; with backup
disabled it leaves the backup directory unchanged and still issues the
service stop. -/
theorem apply_update_backs_up_and_stops (cfg : UpdateConfig)
    (backupOk : Bool) (bname vinfo : String) (pkg : List (String × String))
    (w : World) :
    (cfg.backup_before_update = true → backupOk = true →
      ((apply_update cfg backupOk bname vinfo pkg w).2).backups =
          w.backups ++ [bname] ∧
        ((apply_update cfg backupOk bname vinfo pkg w).2).serviceStops =
          w.serviceStops + 1) ∧
    (cfg.backup_before_update = false →
      ((apply_update cfg backupOk bname vinfo pkg w).2).backups = w.backups ∧
        ((apply_update cfg backupOk bname vinfo pkg w).2).serviceStops =
          w.serviceStops + 1) := by
  constructor
  · intro h1 h2
    cases hl : lookupFile pkg "VERSION" <;> simp [apply_update, h1, h2, hl]
  · intro h1
    cases hl : lookupFile pkg "VERSION" <;> simp [apply_update, h1, hl]

/-- Witness for C8 (amended): the default configuration has backups enabled;
a successful run appends the backup name and counts one stop. -/
theorem apply_update_backs_up_and_stops_witness :
    ((apply_update default_update_config true "b1" "vi" []
        frameCounterWorld).2).backups = ["b1"] ∧
    ((apply_update default_update_config true "b1" "vi" []
        frameCounterWorld).2).serviceStops = 1 :=
  (apply_update_backs_up_and_stops default_update_config true "b1" "vi" []
    frameCounterWorld).1 rfl rfl

/-! ## `download_update` and `perform_update`
(src/update_manager.py lines 135–175 and 349–388) -/

/-- The structured result dictionary returned by `perform_update`. -/
structure UpdateResult where
  success : Bool
  message : Option String := none
  error : Option String := none
  new_version : Option String := none
deriving Repr, DecidableEq

/-- `UpdateManager.download_update`: create a fresh temporary directory
(`tmp`, with `mkdtemp` freshness expressed as `tmp ∉ w.tempDirs` in the
theorems), derive the archive filename from the URL's last path segment
(defaulting to `update.tar.gz`), stream the download (success modelled by
`netOk`); on any error remove the temporary directory before the error
propagates. -/
def download_update (url tmp : String) (netOk : Bool) (w : World) :
    Except String String × World :=
  let w1 := { w with tempDirs := w.tempDirs ++ [tmp] }
  if netOk then
    let seg := String.mk ((splitOnChar '/' url.toList).getLastD [])
    let filename :=
      if endsWithStr seg ".tar.gz" || endsWithStr seg ".zip" then seg
      else "update.tar.gz"
    (.ok (tmp ++ "/" ++ filename), w1)
  else
    (.error "Failed to download update",
      { w1 with tempDirs := w1.tempDirs.filter (fun d => d ≠ tmp) })

/-- The `finally` block of `perform_update`: remove the scratch directory. -/
def cleanupTemp (tmp : String) (w : World) : World :=
  { w with tempDirs := w.tempDirs.filter (fun d => d ≠ tmp) }

/-- `UpdateManager.perform_update`: download → extract → validate → apply →
optional restart, returning a structured result, every failure caught and
converted to `success := false`; the `finally` block removes the scratch
directory on every exit path on which `temp_dir` was assigned (when the
download itself fails, `temp_dir` is still `None` and `download_update`
already removed its scratch directory).

`extractOk` models whether `extract_update` raises (its file-level
behaviour is modelled separately by `extract_update` below); `pkg` is the
extracted package listing, used by both validation and apply; the package
content root is taken to be the extraction root. -/
def perform_update (cfg : UpdateConfig) (currentVersion url tmp bname
    vinfo : String) (netOk extractOk backupOk : Bool)
    (pkg : List (String × String)) (w : World) : UpdateResult × World :=
  match download_update url tmp netOk w with
  | (.error e, w1) => ({ success := false, error := some e }, w1)
  | (.ok _, w1) =>
    if !extractOk then
      ({ success := false, error := some "Failed to extract update" },
        cleanupTemp tmp w1)
    else if !(validate_update currentVersion pkg cfg.critical_files) then
      ({ success := false, error := some "Update validation failed" },
        cleanupTemp tmp w1)
    else
      match apply_update cfg backupOk bname vinfo pkg w1 with
      | (false, w2) =>
        ({ success := false, error := some "Failed to apply update" },
          cleanupTemp tmp w2)
      | (true, w2) =>
        let w3 := if cfg.restart_after_update
          then { w2 with serviceStarts := w2.serviceStarts + 1 } else w2
        let newv := match lookupFile pkg "VERSION" with
          | some c => trimStr c
          | none => currentVersion
        ({ success := true, message := some "Update completed successfully",
           new_version := some newv }, cleanupTemp tmp w3)

theorem apply_update_preserves_tempDirs (cfg : UpdateConfig)
    (backupOk : Bool) (bname vinfo : String) (pkg : List (String × String))
    (w : World) :
    ((apply_update cfg backupOk bname vinfo pkg w).2).tempDirs =
      w.tempDirs := by
  unfold apply_update
  cases hc : cfg.backup_before_update <;> cases hbo : backupOk <;>
    cases hl : lookupFile pkg "VERSION" <;> simp [hc, hbo, hl]

theorem filter_ne_of_not_mem {tmp : String} {l : List String}
    (h : tmp ∉ l) : l.filter (fun d => d ≠ tmp) = l := by
  induction l with
  | nil => rfl
  | cons x xs ih =>
    simp only [List.mem_cons, not_or] at h
    rw [List.filter_cons, if_pos (by simp [Ne.symm h.1]), ih h.2]

/-- An installation-root state with nothing installed and no scratch space,
used to instantiate theorems at concrete inputs. -/
def emptyWorld : World where
  install := fun _ => none
  backups := []
  tempDirs := []
  serviceStops := 0
  serviceStarts := 0

/-- C1: whenever `validate_update` rejects the extracted package — in
particular whenever its version marker is not strictly greater than the
current version — `perform_update` returns `success := false` and
`apply_update` is never reached: the installation contents, the backup
directory and the service-stop count are all unchanged, so no file of the
package is copied into the installation. -/
theorem perform_update_rejects_invalid (cfg : UpdateConfig)
    (currentVersion url tmp bname vinfo : String)
    (netOk extractOk backupOk : Bool) (pkg : List (String × String))
    (w : World)
    (hval : validate_update currentVersion pkg cfg.critical_files = false) :
    (perform_update cfg currentVersion url tmp bname vinfo netOk extractOk
        backupOk pkg w).1.success = false ∧
    ((perform_update cfg currentVersion url tmp bname vinfo netOk extractOk
        backupOk pkg w).2).install = w.install ∧
    ((perform_update cfg currentVersion url tmp bname vinfo netOk extractOk
        backupOk pkg w).2).backups = w.backups ∧
    ((perform_update cfg currentVersion url tmp bname vinfo netOk extractOk
        backupOk pkg w).2).serviceStops = w.serviceStops := by
  cases netOk <;> cases extractOk <;>
    simp [perform_update, download_update, cleanupTemp, hval]

/-- Witness for C1: a package shipping no version marker is rejected and the
installation is left untouched. -/
theorem perform_update_rejects_invalid_witness :
    (perform_update default_update_config "1.0.0" "http://x/u.zip" "/tmp/t"
        "b" "vi" true true true [("src/dagr.py", "new")]
        emptyWorld).1.success = false ∧
    ((perform_update default_update_config "1.0.0" "http://x/u.zip" "/tmp/t"
        "b" "vi" true true true [("src/dagr.py", "new")]
        emptyWorld).2).install = emptyWorld.install :=
  ⟨(perform_update_rejects_invalid default_update_config "1.0.0"
      "http://x/u.zip" "/tmp/t" "b" "vi" true true true
      [("src/dagr.py", "new")] emptyWorld (by decide)).1,
    (perform_update_rejects_invalid default_update_config "1.0.0"
      "http://x/u.zip" "/tmp/t" "b" "vi" true true true
      [("src/dagr.py", "new")] emptyWorld (by decide)).2.1⟩

/-- C6: a failed download removes the scratch directory inside
`download_update` before the error propagates, `perform_update` then
reports `success := false` with the download error, and on every exit path
— download failure, extraction failure, validation failure, apply failure
or success — `perform_update` leaves the temporary-directory set exactly as
it was (the scratch directory `tmp` being fresh). -/
theorem perform_update_cleans_scratch (cfg : UpdateConfig)
    (currentVersion url tmp bname vinfo : String)
    (netOk extractOk backupOk : Bool) (pkg : List (String × String))
    (w : World) (hfresh : tmp ∉ w.tempDirs) :
    (download_update url tmp false w).1 =
        .error "Failed to download update" ∧
    ((download_update url tmp false w).2).tempDirs = w.tempDirs ∧
    (netOk = false →
      (perform_update cfg currentVersion url tmp bname vinfo netOk extractOk
          backupOk pkg w).1.success = false ∧
      (perform_update cfg currentVersion url tmp bname vinfo netOk extractOk
          backupOk pkg w).1.error = some "Failed to download update") ∧
    ((perform_update cfg currentVersion url tmp bname vinfo netOk extractOk
        backupOk pkg w).2).tempDirs = w.tempDirs := by
  have hmem : ∀ a ∈ w.tempDirs, ¬ a = tmp := fun a ha he => hfresh (he ▸ ha)
  have hfa : (w.tempDirs ++ [tmp]).filter (fun d => d ≠ tmp) = w.tempDirs := by
    rw [List.filter_append, filter_ne_of_not_mem hfresh]
    simp
  refine ⟨by simp [download_update],
    by simp [download_update, hfa]; exact hmem, ?_, ?_⟩
  · intro h
    subst h
    simp [perform_update, download_update]
  · cases netOk with
    | false =>
      simp [perform_update, download_update, hfa]
      exact hmem
    | true =>
      cases extractOk with
      | false =>
        simp [perform_update, download_update, cleanupTemp, hfa]
        exact hmem
      | true =>
        cases hv : validate_update currentVersion pkg cfg.critical_files with
        | false =>
          simp [perform_update, download_update, cleanupTemp, hv, hfa]
          exact hmem
        | true =>
          cases hap : apply_update cfg backupOk bname vinfo pkg
              { w with tempDirs := w.tempDirs ++ [tmp] } with
          | mk b w2 =>
            have ht : w2.tempDirs = w.tempDirs ++ [tmp] := by
              have hpre := apply_update_preserves_tempDirs cfg backupOk bname
                vinfo pkg { w with tempDirs := w.tempDirs ++ [tmp] }
              rw [hap] at hpre
              exact hpre
            cases b <;> cases hr : cfg.restart_after_update <;>
              simp [perform_update, download_update, cleanupTemp, hv, hap,
                hr, ht, hfa] <;>
              exact hmem

/-- Witness for C6: a simulated network failure yields a failed result and
leaves no temporary directory behind. -/
theorem perform_update_cleans_scratch_witness :
    ((perform_update default_update_config "1.0.0" "http://x/u.zip" "/tmp/t"
        "b" "vi" false true true [] emptyWorld).2).tempDirs = [] ∧
    (perform_update default_update_config "1.0.0" "http://x/u.zip" "/tmp/t"
        "b" "vi" false true true [] emptyWorld).1.success = false :=
  ⟨(perform_update_cleans_scratch default_update_config "1.0.0"
      "http://x/u.zip" "/tmp/t" "b" "vi" false true true [] emptyWorld
      (by decide)).2.2.2,
    ((perform_update_cleans_scratch default_update_config "1.0.0"
      "http://x/u.zip" "/tmp/t" "b" "vi" false true true [] emptyWorld
      (by decide)).2.2.1 rfl).1⟩

/-! ## `create_backup` (src/update_manager.py lines 88–133)

The backup area is modelled at file level as an association list of
(absolute-ish path under the backup root, content). The critical paths
copied from the installation are given as `srcFiles`: pairs of (path
relative to the backup directory for this backup, content), in copy order.
`failAt = some n` models an exception raised after `n` copy steps (with
`n ≥ srcFiles.length` meaning failure during the manifest write); the
except block then removes the whole partial backup directory with `rmtree`
before re-raising. `manifest` is the serialized manifest content (it embeds
the current version and a wall-clock-independent file list). -/

/-- The backup directory for a given backup name (`self.backup_dir / name`,
with the backup root abbreviated to `backups`). -/
def backupPath (name : String) : String := "backups/" ++ name

/-- Whether a path lies strictly under a directory root. -/
def isUnder (root p : String) : Bool := startsWithStr p (root ++ "/")

/-- `UpdateManager.create_backup`: copy the critical paths into the backup
directory, then write the manifest; on any failure remove the partial
backup directory and report the error (`false`). -/
def create_backup (name : String) (srcFiles : List (String × String))
    (manifest : String) (failAt : Option Nat)
    (fs : List (String × String)) : Bool × List (String × String) :=
  match failAt with
  | some n =>
    let partialFs := fs ++ (srcFiles.take n).map
      (fun f => (backupPath name ++ "/" ++ f.1, f.2))
    (false, partialFs.filter (fun f => !(isUnder (backupPath name) f.1)))
  | none =>
    (true,
      fs ++ srcFiles.map (fun f => (backupPath name ++ "/" ++ f.1, f.2))
        ++ [(backupPath name ++ "/manifest.json", manifest)])

/-- C5: if `create_backup` fails at any point mid-copy or
mid-manifest-write, the partial backup directory is removed before the
error propagates: after a failed `create_backup`, no file under the backup
directory for that name remains on disk. -/
theorem create_backup_cleans_partial (name : String)
    (srcFiles : List (String × String)) (manifest : String) (n : Nat)
    (fs : List (String × String)) :
    (create_backup name srcFiles manifest (some n) fs).1 = false ∧
    ((create_backup name srcFiles manifest (some n) fs).2.filter
      (fun f => isUnder (backupPath name) f.1)) = [] := by
  refine ⟨rfl, ?_⟩
  simp only [create_backup, List.filter_filter]
  have : ∀ f : String × String,
      (isUnder (backupPath name) f.1 && !(isUnder (backupPath name) f.1))
        = false := by
    intro f
    cases isUnder (backupPath name) f.1 <;> rfl
  simp [this]

/-! ## `extract_update` (src/update_manager.py lines 177–199)

The archive's entries are given as (path relative to the archive root,
content); extraction writes them under the sibling `extracted` directory.
`failAt = some n` models an extraction exception after `n` entries were
written. The except block logs and re-raises WITHOUT removing the partial
output — this is exactly what the C7 counterexample exhibits. -/

/-- `UpdateManager.extract_update`: dispatch on the archive extension
(`.zip` by `Path.suffix`, `.tar.gz` by `name.endswith`); unsupported
extensions raise a `ValueError` format error; extraction writes entries
into the sibling `extracted` directory; on failure the partial output is
left in place and the error propagates. -/
def extract_update (archive_path : String)
    (entries : List (String × String)) (failAt : Option Nat)
    (fs : List (String × String)) :
    Except String String × List (String × String) :=
  let extract_dir := parentDir archive_path ++ "/extracted"
  if pathSuffix archive_path == ".zip" ||
      endsWithStr (fileName archive_path) ".tar.gz" then
    match failAt with
    | some n =>
      (.error "Failed to extract update",
        fs ++ (entries.take n).map
          (fun e => (extract_dir ++ "/" ++ e.1, e.2)))
    | none =>
      (.ok extract_dir,
        fs ++ entries.map (fun e => (extract_dir ++ "/" ++ e.1, e.2)))
  else
    (.error ("Unsupported archive format: " ++ archive_path), fs)

/-- C7 counterexample: extracting `/tmp/d/update.zip` with a failure after
one of two entries surfaces the error but leaves the partially extracted
file `/tmp/d/extracted/a.py` on disk — the extracted directory is NOT
removed before the error surfaces, so the claim's rollback half is false. -/
theorem extract_update_counterexample :
    (extract_update "/tmp/d/update.zip" [("a.py", "x"), ("b.py", "y")]
        (some 1) []).1 = .error "Failed to extract update" ∧
    (extract_update "/tmp/d/update.zip" [("a.py", "x"), ("b.py", "y")]
        (some 1) []).2 = [("/tmp/d/extracted/a.py", "x")] := by
  refine ⟨rfl, rfl⟩

/-- C7 (amended): `extract_update` fails with a format error (leaving the
file set unchanged) when the extension is neither `.zip` nor `.tar.gz`; on
an extraction failure the error propagates, but the partially extracted
entries remain under the `extracted` directory — `extract_update` performs
no rollback of its own; removal of the whole scratch area is left to
`perform_update`'s cleanup. On success all entries are extracted. -/
theorem extract_update_spec (archive_path : String)
    (entries : List (String × String)) (n : Nat)
    (fs : List (String × String)) :
    (pathSuffix archive_path ≠ ".zip" →
      endsWithStr (fileName archive_path) ".tar.gz" = false →
      ∀ failAt, extract_update archive_path entries failAt fs =
        (.error ("Unsupported archive format: " ++ archive_path), fs)) ∧
    ((pathSuffix archive_path = ".zip" ∨
        endsWithStr (fileName archive_path) ".tar.gz" = true) →
      (extract_update archive_path entries (some n) fs =
        (.error "Failed to extract update",
          fs ++ (entries.take n).map
            (fun e => (parentDir archive_path ++ "/extracted" ++ "/" ++ e.1,
              e.2))) ∧
      extract_update archive_path entries none fs =
        (.ok (parentDir archive_path ++ "/extracted"),
          fs ++ entries.map
            (fun e => (parentDir archive_path ++ "/extracted" ++ "/" ++ e.1,
              e.2))))) := by
  constructor
  · intro h1 h2 failAt
    have hz : (pathSuffix archive_path == ".zip") = false := by
      simp [h1]
    simp [extract_update, hz, h2]
  · intro h
    have hor : (pathSuffix archive_path == ".zip" ||
        endsWithStr (fileName archive_path) ".tar.gz") = true := by
      rcases h with h | h
      · simp [h]
      · simp [h]
    constructor <;> simp [extract_update, hor]

/-- Witness for C7 (amended): an unsupported `.rar` archive yields the
format error untouched, and a failed `.tar.gz` extraction leaves its
partial entry behind. -/
theorem extract_update_spec_witness :
    extract_update "/tmp/d/update.rar" [("a.py", "x")] (some 0) [] =
      (.error "Unsupported archive format: /tmp/d/update.rar", []) ∧
    extract_update "/tmp/d/u.tar.gz" [("a.py", "x")] (some 1) [] =
      (.error "Failed to extract update", [("/tmp/d/extracted/a.py", "x")]) := by
  constructor
  · exact (extract_update_spec "/tmp/d/update.rar" [("a.py", "x")] 0 []).1
      (by decide) (by decide) (some 0)
  · have h := ((extract_update_spec "/tmp/d/u.tar.gz" [("a.py", "x")] 1 []).2
      (Or.inr (by decide))).1
    exact h.trans rfl

/-! ## `list_backups` (src/update_manager.py lines 436–457)

The backup root is modelled as the list of its subdirectories in `iterdir`
order, each paired with the result of reading its manifest: `none` when
`manifest.json` is missing or unreadable (the `except` branch that logs a
warning and skips the entry), `some m` when it was parsed. `sorted(...,
key=..., reverse=True)` is a stable descending sort, modelled by
`List.mergeSort` with the reversed comparison. -/

/-- A parsed backup manifest (as written by `create_backup`). -/
structure BackupManifest where
  backup_date : String
  version : String
  git_commit : Option String
  files : List String
deriving Repr, DecidableEq

/-- One entry of the `list_backups` result. -/
structure BackupEntry where
  name : String
  date : String
  version : String
  git_commit : Option String
  file_count : Nat
deriving Repr, DecidableEq

/-- The entry built from one backup directory's manifest. -/
def backupEntryOf (d : String × Option BackupManifest) : Option BackupEntry :=
  d.2.map (fun m =>
    { name := d.1, date := m.backup_date, version := m.version,
      git_commit := m.git_commit, file_count := m.files.length })

/-- `UpdateManager.list_backups`: scan the backup root, keep the entries
whose manifest was read, and return them sorted by `date` descending
(stable). -/
def list_backups (dirs : List (String × Option BackupManifest)) :
    List BackupEntry :=
  (dirs.filterMap backupEntryOf).mergeSort
    (fun a b => decide (b.date ≤ a.date))

/-- C9: `list_backups` returns exactly one entry per backup whose manifest
was read successfully (a permutation of the readable entries in scan
order — entries with a missing or unreadable manifest are skipped and never
make the listing fail), and the result is sorted by `backup_date`
descending: every entry's date is ≥ the date of every later entry. -/
theorem list_backups_spec (dirs : List (String × Option BackupManifest)) :
    (list_backups dirs).Perm (dirs.filterMap backupEntryOf) ∧
    (list_backups dirs).Pairwise (fun a b => b.date ≤ a.date) := by
  constructor
  · exact List.mergeSort_perm (dirs.filterMap backupEntryOf) _
  · have h := @List.sorted_mergeSort BackupEntry
      (fun a b : BackupEntry => decide (b.date ≤ a.date))
      (fun a b c hab hbc => by
        simp only [decide_eq_true_eq] at *
        exact le_trans hbc hab)
      (fun a b => by
        simp only [Bool.or_eq_true, decide_eq_true_eq]
        exact le_total b.date a.date)
      (dirs.filterMap backupEntryOf)
    exact h.imp (fun hab => by simpa using hab)

end Dagr
